import Mathlib

/-!
Shallow embedding of src/resolver.c, the out-of-process asynchronous name
resolver.  The two pipes are modelled as byte streams (List Nat, each element
a byte value); machine words (void pointers and size_t, 8 bytes each on the
x86-64 target) and C ints (4 bytes) are serialised little-endian, exactly as
the raw memory the C code passes to write(2).  Each C function that touches
the wire is translated to a Lean function over these streams.
-/

namespace Resolver

/-- Size in bytes of a machine word: sizeof(void *) = sizeof(size_t) = 8. -/
def wordSize : Nat := 8

/-- Size of the worker's host buffer: char host[4096] in resolver(). -/
def hostBufSize : Nat := 4096

/-- Size of the worker's service buffer: char port[5] in resolver(). -/
def portBufSize : Nat := 5

/-- Little-endian serialisation of a value into w bytes, as raw memory of a
machine integer passed to fd_write. -/
def toLE : Nat → Nat → List Nat
  | 0, _ => []
  | w + 1, n => (n % 256) :: toLE w (n / 256)

/-- Little-endian deserialisation of a byte list, as reading raw memory of a
machine integer filled by fd_read. -/
def fromLE : List Nat → Nat
  | [] => 0
  | b :: bs => b + 256 * fromLE bs

/-- Reading exactly n bytes from a stream (a completed fd_read of size n):
returns the bytes and the remaining stream, or none when fewer than n bytes
will ever arrive (the read would block forever). -/
def readN (n : Nat) (s : List Nat) : Option (List Nat × List Nat) :=
  if n ≤ s.length then some (s.take n, s.drop n) else none

theorem toLE_length (w n : Nat) : (toLE w n).length = w := by
  induction w generalizing n with
  | zero => rfl
  | succ w ih => simp [toLE, ih]

theorem fromLE_toLE (w n : Nat) : fromLE (toLE w n) = n % 256 ^ w := by
  induction w generalizing n with
  | zero => simp [toLE, fromLE, Nat.mod_one]
  | succ w ih =>
    rw [toLE, fromLE, ih, pow_succ, mul_comm (256 ^ w) 256, Nat.mod_mul]

theorem fromLE_toLE_of_lt {w n : Nat} (h : n < 256 ^ w) :
    fromLE (toLE w n) = n := by
  rw [fromLE_toLE, Nat.mod_eq_of_lt h]

theorem readN_exact (n : Nat) (xs rest : List Nat) (h : xs.length = n) :
    readN n (xs ++ rest) = some (xs, rest) := by
  subst h
  simp [readN, List.take_left, List.drop_left]

/-- A request as the worker sees it after decoding one request frame. -/
structure Request where
  tag : Nat
  host : List Nat
  service : List Nat
  deriving DecidableEq, Repr

/-- Bytes written on the request pipe by resolve(p, host, port):
the tag pointer, strlen(host), the host bytes, strlen(port), the port
bytes, back to back with no delimiters. -/
def encodeRequest (p : Nat) (host service : List Nat) : List Nat :=
  toLE wordSize p ++ toLE wordSize host.length ++ host ++
    toLE wordSize service.length ++ service

/-- Outcome of the worker trying to read one request frame. -/
inductive ReadReq where
  | ok (req : Request) (rest : List Nat)
  | fatal
  | blocked
  deriving DecidableEq, Repr

/-- The request-reading prefix of one iteration of resolver()'s loop:
read the tag pointer, read host_len and reject it when it exceeds
sizeof(host), read the host bytes, read port_len and reject it when it
exceeds sizeof(port), read the port bytes.  fatal is the
fatal("invalid host_len") / fatal("invalid port_len") exit. -/
def readRequest (s : List Nat) : ReadReq :=
  match readN wordSize s with
  | none => .blocked
  | some (pb, s1) =>
    match readN wordSize s1 with
    | none => .blocked
    | some (hlb, s2) =>
      let host_len := fromLE hlb
      if hostBufSize < host_len then .fatal
      else
        match readN host_len s2 with
        | none => .blocked
        | some (hb, s3) =>
          match readN wordSize s3 with
          | none => .blocked
          | some (plb, s4) =>
            let port_len := fromLE plb
            if portBufSize < port_len then .fatal
            else
              match readN port_len s4 with
              | none => .blocked
              | some (sb, s5) => .ok ⟨fromLE pb, hb, sb⟩ s5

/-- Decoding a request frame produced by resolve() recovers the submitted
tag, host and service exactly, leaving the rest of the stream intact. -/
theorem readRequest_encode (t : Nat) (h p rest : List Nat)
    (ht : t < 256 ^ wordSize) (hh : h.length ≤ hostBufSize)
    (hp : p.length ≤ portBufSize) :
    readRequest (encodeRequest t h p ++ rest) = .ok ⟨t, h, p⟩ rest := by
  have hlen : h.length < 256 ^ wordSize := by
    calc h.length ≤ hostBufSize := hh
    _ < 256 ^ wordSize := by norm_num [hostBufSize, wordSize]
  have plen : p.length < 256 ^ wordSize := by
    calc p.length ≤ portBufSize := hp
    _ < 256 ^ wordSize := by norm_num [portBufSize, wordSize]
  simp only [readRequest, encodeRequest, List.append_assoc,
    readN_exact wordSize (toLE wordSize t) _ (toLE_length wordSize t),
    readN_exact wordSize (toLE wordSize h.length) _
      (toLE_length wordSize h.length),
    readN_exact wordSize (toLE wordSize p.length) _
      (toLE_length wordSize p.length),
    readN_exact h.length h _ rfl, readN_exact p.length p _ rfl,
    fromLE_toLE_of_lt ht, fromLE_toLE_of_lt hlen, fromLE_toLE_of_lt plen]
  rw [if_neg (by omega), if_neg (by omega)]

/-- One struct addrinfo as it sits in the worker's memory, together with the
sockaddr block its ai_addr field points to.  The C field types are int
(4 bytes) for ai_flags, ai_family, ai_socktype, ai_protocol, socklen_t
(4 bytes) for ai_addrlen, and pointers (8 bytes) for ai_addr, ai_canonname
and ai_next; on the x86-64 target the struct is 48 bytes with 4 bytes of
padding after ai_addrlen. -/
structure addrinfo where
  ai_flags : Nat
  ai_family : Nat
  ai_socktype : Nat
  ai_protocol : Nat
  ai_addrlen : Nat
  ai_addr : Nat
  ai_canonname : Nat
  ai_next : Nat
  addr : List Nat
  deriving DecidableEq, Repr

/-- Bytes the worker writes for one result record: the raw 48-byte struct
addrinfo (fd_write(fd_out, rp, sizeof(struct addrinfo))), field by field in
x86-64 layout order with the 4 padding bytes after ai_addrlen, followed by
the ai_addrlen-byte sockaddr block (fd_write(fd_out, rp.ai_addr,
rp.ai_addrlen)). -/
def encodeRecord (r : addrinfo) : List Nat :=
  toLE 4 r.ai_flags ++ toLE 4 r.ai_family ++ toLE 4 r.ai_socktype ++
    toLE 4 r.ai_protocol ++ toLE 4 r.ai_addrlen ++ toLE 4 0 ++
    toLE 8 r.ai_addr ++ toLE 8 r.ai_canonname ++ toLE 8 r.ai_next ++ r.addr

/-- Bytes the worker writes for one response: the echoed tag pointer, the
result count nrresults, then each record in chain order. -/
def encodeResponse (p : Nat) (res : List addrinfo) : List Nat :=
  toLE wordSize p ++ toLE wordSize res.length ++
    (res.map encodeRecord).flatten

/-- The record resolve_result() hands the caller after receiving the bytes
of r: every wire field is read back reduced to its field width; ai_addr is
replaced by a fresh allocation holding a copy of the sockaddr bytes
(modelled as the addr list itself, the pointer value zeroed) and ai_next is
rebuilt by the caller-side chaining (modelled by list structure, the
pointer value zeroed). -/
def recvRecord (r : addrinfo) : addrinfo where
  ai_flags := r.ai_flags % 256 ^ 4
  ai_family := r.ai_family % 256 ^ 4
  ai_socktype := r.ai_socktype % 256 ^ 4
  ai_protocol := r.ai_protocol % 256 ^ 4
  ai_addrlen := r.ai_addrlen % 256 ^ 4
  ai_addr := 0
  ai_canonname := r.ai_canonname % 256 ^ 8
  ai_next := 0
  addr := r.addr.take (r.ai_addrlen % 256 ^ 4)

/-- One iteration of resolve_result()'s receive loop: read the 48-byte
struct addrinfo into a fresh record, then allocate ai_addrlen bytes and
read the sockaddr block into them. -/
def readRecord (s : List Nat) : Option (addrinfo × List Nat) :=
  match readN 4 s with
  | none => none
  | some (fl, s1) =>
    match readN 4 s1 with
    | none => none
    | some (fa, s2) =>
      match readN 4 s2 with
      | none => none
      | some (st, s3) =>
        match readN 4 s3 with
        | none => none
        | some (pr, s4) =>
          match readN 4 s4 with
          | none => none
          | some (al, s5) =>
            match readN 4 s5 with
            | none => none
            | some (_, s6) =>
              match readN 8 s6 with
              | none => none
              | some (_, s7) =>
                match readN 8 s7 with
                | none => none
                | some (cn, s8) =>
                  match readN 8 s8 with
                  | none => none
                  | some (_, s9) =>
                    match readN (fromLE al) s9 with
                    | none => none
                    | some (ab, s10) =>
                      some (⟨fromLE fl, fromLE fa, fromLE st, fromLE pr,
                        fromLE al, 0, fromLE cn, 0, ab⟩, s10)

/-- The receive loop of resolve_result(): nrresults iterations of
readRecord, collecting the records in arrival order (the C code chains
them through ai_next and NULL-terminates the last one, which the list
structure models). -/
def readRecords : Nat → List Nat → Option (List addrinfo × List Nat)
  | 0, s => some ([], s)
  | n + 1, s =>
    match readRecord s with
    | none => none
    | some (r, s1) =>
      match readRecords n s1 with
      | none => none
      | some (rs, s2) => some (r :: rs, s2)

/-- The frame-reading part of resolve_result(): read the echoed tag
pointer, read nrresults, then read that many records. -/
def readResponse (s : List Nat) :
    Option (Nat × List addrinfo × List Nat) :=
  match readN wordSize s with
  | none => none
  | some (pb, s1) =>
    match readN wordSize s1 with
    | none => none
    | some (nb, s2) =>
      match readRecords (fromLE nb) s2 with
      | none => none
      | some (rs, s3) => some (fromLE pb, rs, s3)

/-- Well-formedness of a record in the worker's memory: every field value
fits its C type and the sockaddr block really has ai_addrlen bytes, as
getaddrinfo guarantees. -/
def WFrecord (r : addrinfo) : Prop :=
  r.ai_addrlen < 256 ^ 4 ∧ r.addr.length = r.ai_addrlen

instance (r : addrinfo) : Decidable (WFrecord r) := by
  unfold WFrecord; infer_instance

theorem readRecord_encode (r : addrinfo) (rest : List Nat)
    (hr : WFrecord r) :
    readRecord (encodeRecord r ++ rest) = some (recvRecord r, rest) := by
  obtain ⟨h1, h2⟩ := hr
  have halen : fromLE (toLE 4 r.ai_addrlen) = r.ai_addrlen :=
    fromLE_toLE_of_lt h1
  simp only [readRecord, encodeRecord, List.append_assoc,
    readN_exact 4 (toLE 4 r.ai_flags) _ (toLE_length 4 r.ai_flags),
    readN_exact 4 (toLE 4 r.ai_family) _ (toLE_length 4 r.ai_family),
    readN_exact 4 (toLE 4 r.ai_socktype) _ (toLE_length 4 r.ai_socktype),
    readN_exact 4 (toLE 4 r.ai_protocol) _ (toLE_length 4 r.ai_protocol),
    readN_exact 4 (toLE 4 r.ai_addrlen) _ (toLE_length 4 r.ai_addrlen),
    readN_exact 4 (toLE 4 0) _ (toLE_length 4 0),
    readN_exact 8 (toLE 8 r.ai_addr) _ (toLE_length 8 r.ai_addr),
    readN_exact 8 (toLE 8 r.ai_canonname) _ (toLE_length 8 r.ai_canonname),
    readN_exact 8 (toLE 8 r.ai_next) _ (toLE_length 8 r.ai_next),
    halen, readN_exact r.ai_addrlen r.addr _ h2]
  simp only [recvRecord, fromLE_toLE, Nat.mod_eq_of_lt h1]
  rw [← h2, List.take_length]

theorem readRecords_encode (rs : List addrinfo) (rest : List Nat)
    (hr : ∀ r ∈ rs, WFrecord r) :
    readRecords rs.length ((rs.map encodeRecord).flatten ++ rest) =
      some (rs.map recvRecord, rest) := by
  induction rs with
  | nil => simp [readRecords]
  | cons r rs ih =>
    have hr0 : WFrecord r := hr r (by simp)
    simp only [List.map_cons, List.flatten_cons, List.length_cons,
      List.append_assoc, readRecords, readRecord_encode r _ hr0,
      ih (fun x hx => hr x (by simp [hx]))]

theorem readResponse_encode (t : Nat) (rs : List addrinfo)
    (rest : List Nat) (ht : t < 256 ^ wordSize)
    (hn : rs.length < 256 ^ wordSize) (hr : ∀ r ∈ rs, WFrecord r) :
    readResponse (encodeResponse t rs ++ rest) =
      some (t, rs.map recvRecord, rest) := by
  simp only [readResponse, encodeResponse, List.append_assoc,
    readN_exact wordSize (toLE wordSize t) _ (toLE_length wordSize t),
    readN_exact wordSize (toLE wordSize rs.length) _
      (toLE_length wordSize rs.length),
    fromLE_toLE_of_lt ht, fromLE_toLE_of_lt hn,
    readRecords_encode rs rest hr]

/-- The platform address-resolution facility: given the decoded request it
returns getaddrinfo's return code together with the res chain it produced
(the chain the worker walks; on failure getaddrinfo leaves res at its
initialised NULL, i.e. the empty list). -/
def GaiOracle : Type := Request → Int × List addrinfo

/-- One iteration of resolver()'s loop: read one request frame (none when
the read was fatal or the stream has no full frame), call getaddrinfo —
whose return code ret the code never consults (the XXX: improve error
handling comment) — then write the tag pointer, nrresults, and the records
of the res chain in order.  Returns the bytes written and the unread rest
of the request stream. -/
def workerStep (gai : GaiOracle) (s : List Nat) :
    Option (List Nat × List Nat) :=
  match readRequest s with
  | .ok req rest => some (encodeResponse req.tag (gai req).2, rest)
  | _ => none

/-- n iterations of resolver()'s loop over a request stream, concatenating
everything written on the result pipe; a fatal or blocked read produces no
further output. -/
def workerRun (gai : GaiOracle) : Nat → List Nat → List Nat
  | 0, _ => []
  | n + 1, s =>
    match workerStep gai s with
    | none => []
    | some (out, rest) => out ++ workerRun gai n rest

theorem workerStep_encode (gai : GaiOracle) (t : Nat) (h p rest : List Nat)
    (ht : t < 256 ^ wordSize) (hh : h.length ≤ hostBufSize)
    (hp : p.length ≤ portBufSize) :
    workerStep gai (encodeRequest t h p ++ rest) =
      some (encodeResponse t (gai ⟨t, h, p⟩).2, rest) := by
  rw [workerStep, readRequest_encode t h p rest ht hh hp]

/-- n successive resolve_result frame reads from the result stream,
collecting tag and record list per call. -/
def fetchSeq : Nat → List Nat → Option (List (Nat × List addrinfo))
  | 0, _ => some []
  | n + 1, s =>
    match readResponse s with
    | none => none
    | some (t, rs, rest) =>
      match fetchSeq n rest with
      | none => none
      | some out => some ((t, rs) :: out)

/-- Well-formedness of a request before encoding: the tag is a pointer
value (fits a machine word) and host and service are C strings whose
lengths fit the worker's buffers. -/
def WFrequest (req : Request) : Prop :=
  req.tag < 256 ^ wordSize ∧ req.host.length ≤ hostBufSize ∧
    req.service.length ≤ portBufSize

instance (req : Request) : Decidable (WFrequest req) := by
  unfold WFrequest; infer_instance

/-- Well-formedness of a getaddrinfo oracle: every res chain it can hand
the worker has records whose sockaddr blocks match their ai_addrlen and a
chain length that fits a size_t. -/
def WFgai (gai : GaiOracle) (req : Request) : Prop :=
  (gai req).2.length < 256 ^ wordSize ∧ ∀ r ∈ (gai req).2, WFrecord r

/-- The bytes resolve() writes for each request of a list, back to back in
submission order. -/
def encodeRequests (reqs : List Request) : List Nat :=
  (reqs.map fun q => encodeRequest q.tag q.host q.service).flatten

/-- Sequential worker on a stream of encoded requests: the output is the
encoded responses, one per request, in submission order. -/
theorem workerRun_encodeRequests (gai : GaiOracle) (reqs : List Request)
    (hq : ∀ q ∈ reqs, WFrequest q) :
    workerRun gai reqs.length (encodeRequests reqs) =
      (reqs.map fun q => encodeResponse q.tag (gai q).2).flatten := by
  induction reqs with
  | nil => rfl
  | cons q qs ih =>
    obtain ⟨h1, h2, h3⟩ := hq q (by simp)
    calc workerRun gai (q :: qs).length (encodeRequests (q :: qs))
        = encodeResponse q.tag (gai q).2 ++
            workerRun gai qs.length (encodeRequests qs) := by
          simp only [encodeRequests, List.map_cons, List.flatten_cons,
            List.length_cons, workerRun,
            workerStep_encode gai q.tag q.host q.service _ h1 h2 h3]
      _ = (List.map
            (fun q => encodeResponse q.tag (gai q).2) (q :: qs)).flatten := by
          rw [ih fun x hx => hq x (by simp [hx])]
          simp

/-- Draining the worker's output with repeated resolve_result calls yields
one response per request, in submission order, each echoing its request's
tag and carrying the received copies of that request's records. -/
theorem fetchSeq_workerRun (gai : GaiOracle) (reqs : List Request)
    (hq : ∀ q ∈ reqs, WFrequest q) (hg : ∀ q ∈ reqs, WFgai gai q) :
    fetchSeq reqs.length
        (workerRun gai reqs.length (encodeRequests reqs)) =
      some (reqs.map fun q => (q.tag, (gai q).2.map recvRecord)) := by
  rw [workerRun_encodeRequests gai reqs hq]
  induction reqs with
  | nil => rfl
  | cons q qs ih =>
    obtain ⟨hn, hr⟩ := hg q (by simp)
    obtain ⟨h1, _, _⟩ := hq q (by simp)
    simp only [List.map_cons, List.flatten_cons, List.length_cons,
      fetchSeq, List.append_assoc,
      readResponse_encode q.tag (gai q).2 _ h1 hn hr,
      ih (fun x hx => hq x (by simp [hx])) (fun x hx => hg x (by simp [hx]))]

/-! File-descriptor O_NONBLOCK state.  A flag map assigns each descriptor
number its O_NONBLOCK bit; fd_setnonblock and fd_setblock are the only two
fcntl users in the file. -/

/-- fd_setnonblock(fd): fcntl F_GETFL, or in O_NONBLOCK, F_SETFL. -/
def fd_setnonblock (fd : Nat) (nb : Nat → Bool) : Nat → Bool :=
  fun x => if x = fd then true else nb x

/-- fd_setblock(fd): fcntl F_GETFL, clear O_NONBLOCK, F_SETFL. -/
def fd_setblock (fd : Nat) (nb : Nat → Bool) : Nat → Bool :=
  fun x => if x = fd then false else nb x

/-- Full resolve_result(): switch the result descriptor _fdres to blocking,
read one response frame (tag, nrresults, the records), switch _fdres back
to non-blocking, and return the final flag map, the tag, the record list
and the unread rest of the result stream. -/
def resolve_result (fdres : Nat) (nb : Nat → Bool) (s : List Nat) :
    Option ((Nat → Bool) × Nat × List addrinfo × List Nat) :=
  let nb1 := fd_setblock fdres nb
  match readResponse s with
  | none => none
  | some (t, rs, rest) => some (fd_setnonblock fdres nb1, t, rs, rest)

/-- Result of resolver_start() as seen by the caller.  pipe(fds) and
pipe(fds2) allocate four fresh descriptors, numbered consecutively from
the lowest free number f: fds = (f, f+1), fds2 = (f+2, f+3).  Pipes are
created with O_NONBLOCK clear.  The parent stores _fd = fds[1] (request
write end) and _fdres = fds2[0] (result read end) and returns fds2[0];
the function performs no fcntl call. -/
structure StartResult where
  nb : Nat → Bool
  reqfd : Nat
  resfd : Nat
  retval : Nat

/-- resolver_start() in the parent, modelling descriptor allocation from
the first free number f over the pre-existing flag map nb. -/
def resolver_start (f : Nat) (nb : Nat → Bool) : StartResult where
  nb := fun x => if f ≤ x ∧ x < f + 4 then false else nb x
  reqfd := f + 1
  resfd := f + 2
  retval := f + 2

/-! The raw channel primitives fd_read and fd_write.  Each read(2) or
write(2) call is one event of a trace: either it transfers k bytes
(k > 0), hits end-of-stream (returns 0 — only read does this), or fails
returning -1 with an errno.  The C loop body is

  do \x7b
    if (ret < 0) ret = 0;
    p += ret;
    if (p - buf == size) break;
    todo -= ret;
    ret = read(fd, p, todo);
  \x7d while (ret || ((ret < 0) && (errno == EINTR || errno == EAGAIN)));
  if (ret < 0) fatal("fd_read");

The while condition is true exactly when ret is nonzero: when ret < 0 the
first disjunct ret already holds, whatever errno is. -/

/-- Outcome of one read(2)/write(2) call: ok k is a return value of
k ≥ 0 (k = 0 is end-of-stream for read), err is -1 with the given errno. -/
inductive RWEvent where
  | ok (k : Nat)
  | err (errno : Nat)
  deriving DecidableEq, Repr

/-- Final state of one fd_read/fd_write call. -/
inductive RWOutcome where
  | done (transferred : Nat)
  | fatalStop
  | spinning (transferred : Nat)
  deriving DecidableEq, Repr

/-- EINTR on this platform. -/
def EINTR : Nat := 4

/-- EAGAIN on this platform. -/
def EAGAIN : Nat := 11

/-- The code after the loop: if (ret < 0) fatal(...) else return. -/
def rwFinish (transferred : Nat) (ret : Int) : RWOutcome :=
  if ret < 0 then .fatalStop else .done transferred

/-- The top-of-body sanitisation if (ret < 0) ret = 0. -/
def sanitize (r : Int) : Int :=
  if r < 0 then 0 else r

theorem sanitize_nonneg (r : Int) : 0 ≤ sanitize r := by
  rw [sanitize]; split <;> omega

/-- The shared transfer loop of fd_read and fd_write over a trace of
syscall outcomes.  State: the remaining trace, bytes transferred so far
(p - buf before the top-of-body adjustment), and the last syscall return
value ret.  The while condition ret || (ret < 0 && (errno == EINTR ||
errno == EAGAIN)) holds exactly when ret is nonzero, so an err event loops
whatever its errno; ok 0 leaves the loop with ret = 0 and returns through
the dead if (ret < 0) fatal check; a break on completion also leaves with
the sanitised ret ≥ 0.  spinning means the trace ended while the loop
still wanted another syscall. -/
def rwLoop (size : Nat) : List RWEvent → Nat → Int → RWOutcome
  | [], done, ret =>
    if done + (sanitize ret).toNat = size then rwFinish size (sanitize ret)
    else .spinning (done + (sanitize ret).toNat)
  | e :: tr, done, ret =>
    if done + (sanitize ret).toNat = size then rwFinish size (sanitize ret)
    else
      match e with
      | .ok k =>
        if k = 0 then rwFinish (done + (sanitize ret).toNat) 0
        else rwLoop size tr (done + (sanitize ret).toNat) k
      | .err _ => rwLoop size tr (done + (sanitize ret).toNat) (-1)

/-- fd_read(fd, buf, size) over a trace of read(2) outcomes:
p = buf; ret = 0; todo = size; then the loop. -/
def fd_read (size : Nat) (trace : List RWEvent) : RWOutcome :=
  rwLoop size trace 0 0

/-- fd_write(fd, buf, size) over a trace of write(2) outcomes: identical
loop structure. -/
def fd_write (size : Nat) (trace : List RWEvent) : RWOutcome :=
  rwLoop size trace 0 0

theorem rwFinish_ne_fatalStop (d : Nat) (r : Int) (h : 0 ≤ r) :
    rwFinish d r ≠ .fatalStop := by
  rw [rwFinish, if_neg (by omega)]
  simp

/-- Both exits of the transfer loop carry a non-negative ret, so the
fatal branch after the loop is unreachable whatever the trace holds. -/
theorem rwLoop_ne_fatalStop (size : Nat) :
    ∀ (trace : List RWEvent) (done : Nat) (ret : Int),
      rwLoop size trace done ret ≠ .fatalStop := by
  intro trace
  induction trace with
  | nil =>
    intro done ret
    rw [rwLoop]
    split
    · exact rwFinish_ne_fatalStop _ _ (sanitize_nonneg ret)
    · simp
  | cons e tr ih =>
    intro done ret
    cases e with
    | ok k =>
      rw [rwLoop]
      split
      · exact rwFinish_ne_fatalStop _ _ (sanitize_nonneg ret)
      · split
        · exact rwFinish_ne_fatalStop _ _ (by omega)
        · exact ih _ _
    | err n =>
      rw [rwLoop]
      split
      · exact rwFinish_ne_fatalStop _ _ (sanitize_nonneg ret)
      · exact ih _ _

/-! The worker's orphan self-check.  resolver_start's child installs
sigalrm_handler and calls alarm(ALARM_TIMEOUT) once before entering the
loop; each handler invocation either re-arms the alarm or exits the
process.  Time is modelled discretely: an alarm armed at time t fires at
t + ALARM_TIMEOUT. -/

/-- define ALARM_TIMEOUT 1 from the source. -/
def ALARM_TIMEOUT : Nat := 1

/-- sigalrm_handler: if (getppid() != 1) alarm(ALARM_TIMEOUT); else
exit(EXIT_FAILURE).  True means the handler re-armed, false means it
exited. -/
def sigalrm_handler (ppid : Nat) : Bool :=
  ppid != 1

/-- The chain of alarm firings: the alarm fires at time t, the handler
inspects getppid() at that moment, and either re-arms (next firing at
t + ALARM_TIMEOUT) or exits at time t.  fuel bounds how many firings are
simulated; some te is an exit at time te. -/
def alarmChain (ppidAt : Nat → Nat) : Nat → Nat → Option Nat
  | _, 0 => none
  | t, fuel + 1 =>
    if sigalrm_handler (ppidAt t) then
      alarmChain ppidAt (t + ALARM_TIMEOUT) fuel
    else some t

theorem alarmChain_exits (ppidAt : Nat → Nat) (d : Nat)
    (horphan : ∀ u, d ≤ u → ppidAt u = 1) :
    ∀ (k t : Nat), d ≤ t + k →
      ∃ te, alarmChain ppidAt t (k + 1) = some te ∧ te ≤ max t d := by
  intro k
  induction k with
  | zero =>
    intro t hdt
    refine ⟨t, ?_, le_max_left _ _⟩
    rw [alarmChain, sigalrm_handler, horphan t (by omega)]
    simp
  | succ k ih =>
    intro t hdt
    by_cases hp : ppidAt t = 1
    · refine ⟨t, ?_, le_max_left _ _⟩
      rw [alarmChain, sigalrm_handler, hp]
      simp
    · have hlt : t < d := by
        by_contra hge
        exact hp (horphan t (by omega))
      obtain ⟨te, he, hle⟩ := ih (t + ALARM_TIMEOUT) (by
        simp only [ALARM_TIMEOUT]
        omega)
      refine ⟨te, ?_, ?_⟩
      · rw [alarmChain, sigalrm_handler]
        have hb : (ppidAt t != 1) = true := by
          simp [hp]
        rw [hb]
        simpa using he
      · have h1 : max (t + ALARM_TIMEOUT) d = d := by
          simp only [ALARM_TIMEOUT]
          omega
        have h2 : d ≤ max t d := le_max_right _ _
        omega

instance (gai : GaiOracle) (req : Request) : Decidable (WFgai gai req) := by
  unfold WFgai; infer_instance

theorem readRequest_encode_nil (t : Nat) (h p : List Nat)
    (ht : t < 256 ^ wordSize) (hh : h.length ≤ hostBufSize)
    (hp : p.length ≤ portBufSize) :
    readRequest (encodeRequest t h p) = .ok ⟨t, h, p⟩ [] := by
  have he := readRequest_encode t h p [] ht hh hp
  simpa using he

theorem workerRun_one (gai : GaiOracle) (t : Nat) (h p : List Nat)
    (ht : t < 256 ^ wordSize) (hh : h.length ≤ hostBufSize)
    (hp : p.length ≤ portBufSize) :
    workerRun gai 1 (encodeRequest t h p) =
      encodeResponse t (gai ⟨t, h, p⟩).2 := by
  have hs : workerStep gai (encodeRequest t h p) =
      some (encodeResponse t (gai ⟨t, h, p⟩).2, []) := by
    have h1 := workerStep_encode gai t h p [] ht hh hp
    simpa using h1
  simp only [workerRun, hs, List.append_nil]

/-! Concrete fixtures used by the witnesses. -/

/-- A concrete addrinfo for witnesses: AF_INET (2), SOCK_STREAM (1),
IPPROTO_TCP (6), a 4-byte sockaddr block. -/
def recW : addrinfo := ⟨0, 2, 1, 6, 4, 0, 0, 0, [127, 0, 0, 1]⟩

/-- A concrete lookup oracle: one record for tag-1 requests, an empty
chain otherwise. -/
def gaiW : GaiOracle := fun q => (0, if q.tag = 1 then [recW] else [])

/-- A concrete failing lookup oracle: nonzero getaddrinfo return code,
res left at its initialised NULL. -/
def gaiFailW : GaiOracle := fun _ => (-2, [])

/-- Two concrete requests for witnesses. -/
def reqsW : List Request :=
  [⟨1, [107, 111], [56, 48]⟩, ⟨2, [120], [53, 51]⟩]

/-! The claims. -/

/-- C1: for every sequence of requests written by the caller via
resolve() while the worker is alive, the responses appear on the result
channel in exactly the order the requests were submitted: draining the
sequential worker's output with one resolve_result frame read per request
yields, as the i-th element, the response to the i-th submitted request —
its tag and its lookup's records — independent of what each lookup
returns. -/
theorem c1_fifo_responses (gai : GaiOracle) (reqs : List Request)
    (hq : ∀ q ∈ reqs, WFrequest q) (hg : ∀ q ∈ reqs, WFgai gai q) :
    fetchSeq reqs.length
        (workerRun gai reqs.length (encodeRequests reqs)) =
      some (reqs.map fun q => (q.tag, (gai q).2.map recvRecord)) :=
  fetchSeq_workerRun gai reqs hq hg

/-- Witness for C1 at two concrete requests. -/
theorem c1_fifo_responses_witness :
    fetchSeq reqsW.length
        (workerRun gaiW reqsW.length (encodeRequests reqsW)) =
      some (reqsW.map fun q => (q.tag, (gaiW q).2.map recvRecord)) :=
  c1_fifo_responses gaiW reqsW (by decide) (by decide)

/-- C2: for every tag value t, a resolve_result() frame read after a
resolve(t, host, service) with no intervening submissions returns exactly
t as the session pointer: the tag is carried through the request frame,
echoed unmodified at the start of the response frame, and the worker
never interprets it (the response is the same whatever t is). -/
theorem c2_tag_roundtrip (gai : GaiOracle) (t : Nat) (h p : List Nat)
    (ht : t < 256 ^ wordSize) (hh : h.length ≤ hostBufSize)
    (hp : p.length ≤ portBufSize) (hg : WFgai gai ⟨t, h, p⟩) :
    readResponse (workerRun gai 1 (encodeRequest t h p)) =
      some (t, (gai ⟨t, h, p⟩).2.map recvRecord, []) := by
  rw [workerRun_one gai t h p ht hh hp]
  obtain ⟨hn, hr⟩ := hg
  have he := readResponse_encode t (gai ⟨t, h, p⟩).2 [] ht hn hr
  simpa using he

/-- Witness for C2 at a concrete tag and request. -/
theorem c2_tag_roundtrip_witness :
    readResponse (workerRun gaiW 1 (encodeRequest 1 [107, 111] [56, 48])) =
      some (1, (gaiW ⟨1, [107, 111], [56, 48]⟩).2.map recvRecord, []) :=
  c2_tag_roundtrip gaiW 1 [107, 111] [56, 48] (by decide) (by decide)
    (by decide) (by decide)

/-- C3 counterexample: a request frame whose declared host length is
exactly 4096 (one byte over the claim's stated host maximum of 4095)
passes the worker's bound check host_len > sizeof(host) and its payload
is read in full, and likewise a declared service length of exactly 5
passes port_len > sizeof(port) — the claimed fatal transport error does
not occur at either input. -/
theorem c3_counterexample :
    readRequest (encodeRequest 7 (List.replicate 4096 65) [56, 48]) =
      .ok ⟨7, List.replicate 4096 65, [56, 48]⟩ []
    ∧ readRequest (encodeRequest 7 [107] (List.replicate 5 48)) =
      .ok ⟨7, [107], List.replicate 5 48⟩ [] := by
  constructor
  · exact readRequest_encode_nil 7 _ _ (by decide)
      (by rw [List.length_replicate]; decide) (by decide)
  · exact readRequest_encode_nil 7 _ _ (by decide) (by decide)
      (by rw [List.length_replicate]; decide)

/-- C3 (amended): the worker raises the fatal transport error exactly
when a declared host length exceeds 4096 (the buffer size, so 4097 is one
byte over) or a declared service length exceeds 5, and it does so before
reading that payload — the fatal verdict depends only on the bytes up to
and including the length field, whatever follows; declared lengths of
exactly 4096 and 5 are accepted and their payload read in full (see the
counterexample and C6). -/
theorem c3_amended :
    (∀ (t hl : Nat) (junk : List Nat), t < 256 ^ wordSize →
      hl < 256 ^ wordSize → hostBufSize < hl →
      readRequest (toLE wordSize t ++ toLE wordSize hl ++ junk) = .fatal)
    ∧ (∀ (t pl : Nat) (h junk : List Nat), t < 256 ^ wordSize →
      h.length ≤ hostBufSize → pl < 256 ^ wordSize → portBufSize < pl →
      readRequest (toLE wordSize t ++ toLE wordSize h.length ++ h ++
        toLE wordSize pl ++ junk) = .fatal) := by
  constructor
  · intro t hl junk ht h64 hgt
    simp only [readRequest, List.append_assoc,
      readN_exact wordSize (toLE wordSize t) _ (toLE_length wordSize t),
      readN_exact wordSize (toLE wordSize hl) _ (toLE_length wordSize hl),
      fromLE_toLE_of_lt h64]
    rw [if_pos hgt]
  · intro t pl h junk ht hh p64 hgt
    have hb : hostBufSize < 256 ^ wordSize := by
      norm_num [hostBufSize, wordSize]
    have hlen : h.length < 256 ^ wordSize := by omega
    simp only [readRequest, List.append_assoc,
      readN_exact wordSize (toLE wordSize t) _ (toLE_length wordSize t),
      readN_exact wordSize (toLE wordSize h.length) _
        (toLE_length wordSize h.length),
      readN_exact h.length h _ rfl,
      readN_exact wordSize (toLE wordSize pl) _ (toLE_length wordSize pl),
      fromLE_toLE_of_lt hlen, fromLE_toLE_of_lt p64]
    rw [if_neg (by omega), if_pos hgt]

/-- Witness for the amended C3: host length 4097 and service length 6
each hit the fatal exit. -/
theorem c3_amended_witness :
    readRequest (toLE wordSize 1 ++ toLE wordSize 4097 ++ []) = .fatal
    ∧ readRequest (toLE wordSize 1 ++ toLE wordSize ([107] : List Nat).length
        ++ [107] ++ toLE wordSize 6 ++ []) = .fatal :=
  ⟨c3_amended.1 1 4097 [] (by decide) (by decide) (by decide),
   c3_amended.2 1 6 [107] [] (by decide) (by decide) (by decide) (by decide)⟩

/-- C4 (code bug): the claim matches the fatal("fd_read") / fatal("fd_write")
exits the author wrote, but those branches are unreachable: the loop
condition ret || (ret < 0 && (errno == EINTR || errno == EAGAIN)) is true
whenever ret is nonzero, so every failing call (any errno, not just EINTR
or EAGAIN) re-enters the loop and retries, and the loop can only be left
with ret = 0 — in particular a read(2) end-of-stream (return 0) exits the
loop and fd_read returns normally with fewer than the requested bytes
transferred.  First conjunct: a request of 8 bytes against a closed peer
returns normally having transferred 0 bytes.  Remaining conjuncts: no
trace of syscall outcomes whatsoever can reach the fatal branch of either
primitive. -/
theorem c4_rw_primitives :
    fd_read 8 [RWEvent.ok 0] = .done 0
    ∧ (∀ (size : Nat) (trace : List RWEvent),
        fd_read size trace ≠ .fatalStop)
    ∧ (∀ (size : Nat) (trace : List RWEvent),
        fd_write size trace ≠ .fatalStop) := by
  refine ⟨by decide, ?_, ?_⟩ <;> intro size trace <;>
    exact rwLoop_ne_fatalStop size trace 0 0

/-- C5: for every request whose lookup reports an error — getaddrinfo
returns a nonzero code and leaves res at its initialised NULL — the
worker still writes a well-formed response frame echoing the request's
tag with a result count of zero; the output is a fixed frame that does
not depend on the error code, so a failed lookup is indistinguishable on
the wire from a successful lookup that found no addresses. -/
theorem c5_lookup_error_swallowed (g₁ g₂ : GaiOracle) (t : Nat)
    (h p : List Nat) (ht : t < 256 ^ wordSize)
    (hh : h.length ≤ hostBufSize) (hp : p.length ≤ portBufSize)
    (_he : (g₁ ⟨t, h, p⟩).1 ≠ 0) (h1 : (g₁ ⟨t, h, p⟩).2 = [])
    (h2 : (g₂ ⟨t, h, p⟩).2 = []) :
    workerRun g₁ 1 (encodeRequest t h p) = encodeResponse t []
    ∧ workerRun g₁ 1 (encodeRequest t h p) =
        workerRun g₂ 1 (encodeRequest t h p)
    ∧ readResponse (workerRun g₁ 1 (encodeRequest t h p)) =
        some (t, [], []) := by
  refine ⟨?_, ?_, ?_⟩
  · rw [workerRun_one g₁ t h p ht hh hp, h1]
  · rw [workerRun_one g₁ t h p ht hh hp,
      workerRun_one g₂ t h p ht hh hp, h1, h2]
  · rw [workerRun_one g₁ t h p ht hh hp, h1]
    have hz := readResponse_encode t [] [] ht (by norm_num [wordSize])
      (by simp)
    simpa using hz

/-- Witness for C5 at a concrete failing oracle. -/
theorem c5_lookup_error_swallowed_witness :
    workerRun gaiFailW 1 (encodeRequest 9 [110] [56, 48]) =
      encodeResponse 9 []
    ∧ workerRun gaiFailW 1 (encodeRequest 9 [110] [56, 48]) =
        workerRun (fun _ => ((0 : Int), ([] : List addrinfo))) 1
          (encodeRequest 9 [110] [56, 48])
    ∧ readResponse (workerRun gaiFailW 1 (encodeRequest 9 [110] [56, 48])) =
        some (9, [], []) :=
  c5_lookup_error_swallowed gaiFailW (fun _ => (0, [])) 9 [110] [56, 48]
    (by decide) (by decide) (by decide) (by decide) rfl rfl

/-- C6: for every host string of length at most the host buffer size and
every service string of length at most the service buffer size, encoding
the request with resolve() and decoding it in the worker yields host and
service contents byte-for-byte equal to the submitted strings, with no
truncation and nothing left unread. -/
theorem c6_bounded_roundtrip (t : Nat) (h p : List Nat)
    (ht : t < 256 ^ wordSize) (hh : h.length ≤ hostBufSize)
    (hp : p.length ≤ portBufSize) :
    readRequest (encodeRequest t h p) = .ok ⟨t, h, p⟩ [] :=
  readRequest_encode_nil t h p ht hh hp

/-- Witness for C6 at a concrete request. -/
theorem c6_bounded_roundtrip_witness :
    readRequest (encodeRequest 5 [102, 111, 111] [49, 50, 51, 52]) =
      .ok ⟨5, [102, 111, 111], [49, 50, 51, 52]⟩ [] :=
  c6_bounded_roundtrip 5 [102, 111, 111] [49, 50, 51, 52] (by decide)
    (by decide) (by decide)

/-- C7: if the caller process disappears at time d — from then on
getppid() returns 1, the worker having been reparented — then the alarm
chain started by resolver_start (first firing ALARM_TIMEOUT after the
fork) exits the worker at a time te no later than d plus two self-check
intervals, with no I/O involved. -/
theorem c7_orphan_termination (ppidAt : Nat → Nat) (d : Nat)
    (horphan : ∀ u, d ≤ u → ppidAt u = 1) :
    ∃ te, alarmChain ppidAt ALARM_TIMEOUT (d + 1) = some te
      ∧ te ≤ d + 2 * ALARM_TIMEOUT := by
  obtain ⟨te, he, hle⟩ := alarmChain_exits ppidAt d horphan d ALARM_TIMEOUT
    (by simp [ALARM_TIMEOUT])
  refine ⟨te, he, ?_⟩
  have h1 : max ALARM_TIMEOUT d ≤ d + 2 * ALARM_TIMEOUT := by
    simp only [ALARM_TIMEOUT]
    omega
  omega

/-- Witness for C7: the parent disappears at time 3 and the worker exits
by time 5. -/
theorem c7_orphan_termination_witness :
    ∃ te, alarmChain (fun u => if 3 ≤ u then 1 else 42) ALARM_TIMEOUT
        (3 + 1) = some te ∧ te ≤ 3 + 2 * ALARM_TIMEOUT :=
  c7_orphan_termination (fun u => if 3 ≤ u then 1 else 42) 3
    (fun u hu => by simp [hu])

/-- C8 counterexample: resolver_start performs no fcntl call, so the
returned result-channel read end still has its O_NONBLOCK flag clear —
the descriptor is handed back in the default blocking mode, contradicting
the claim that it is already non-blocking before any resolve_result
call. -/
theorem c8_counterexample :
    ¬ ((resolver_start 3 (fun _ => false)).nb
        ((resolver_start 3 (fun _ => false)).retval) = true) := by
  decide

/-- C8 (amended): resolver_start returns the read end of the result
channel to the caller, but in the pipe's default blocking mode (O_NONBLOCK
clear); the descriptor is first placed in non-blocking mode only when a
resolve_result call completes. -/
theorem c8_amended (f : Nat) (nb : Nat → Bool) :
    (resolver_start f nb).retval = (resolver_start f nb).resfd
    ∧ (resolver_start f nb).nb ((resolver_start f nb).retval) = false := by
  refine ⟨rfl, ?_⟩
  show (if f ≤ f + 2 ∧ f + 2 < f + 4 then false else nb (f + 2)) = false
  rw [if_pos ⟨by omega, by omega⟩]

/-- C9: every resolve_result call reads exactly one full response frame
from the result stream — leaving the bytes after that frame unread — and
by the time it returns it has restored the result descriptor's
O_NONBLOCK flag, whatever the frame's tag or result count; every other
descriptor's flag is left exactly as it was. -/
theorem c9_fetch_one_frame (fdres : Nat) (nb : Nat → Bool) (t : Nat)
    (rs : List addrinfo) (rest : List Nat) (ht : t < 256 ^ wordSize)
    (hn : rs.length < 256 ^ wordSize) (hr : ∀ r ∈ rs, WFrecord r) :
    ∃ nbOut, resolve_result fdres nb (encodeResponse t rs ++ rest) =
        some (nbOut, t, rs.map recvRecord, rest)
      ∧ nbOut fdres = true
      ∧ ∀ fd, fd ≠ fdres → nbOut fd = nb fd := by
  refine ⟨fd_setnonblock fdres (fd_setblock fdres nb), ?_, ?_, ?_⟩
  · simp only [resolve_result, readResponse_encode t rs rest ht hn hr]
  · simp [fd_setnonblock]
  · intro fd hfd
    simp [fd_setnonblock, fd_setblock, hfd]

/-- Witness for C9 at a concrete frame with one record and a trailing
byte. -/
theorem c9_fetch_one_frame_witness :
    ∃ nbOut, resolve_result 5 (fun _ => false)
        (encodeResponse 1 [recW] ++ [9]) =
        some (nbOut, 1, [recW].map recvRecord, [9])
      ∧ nbOut 5 = true
      ∧ ∀ fd, fd ≠ 5 → nbOut fd = (fun _ => false : Nat → Bool) fd :=
  c9_fetch_one_frame 5 (fun _ => false) 1 [recW] [9] (by decide)
    (by decide) (by decide)

/-- C10: for every decoded response frame with result count n (the worker
writes n = length of the res chain), the record list resolve_result hands
back is the NULL-terminated chain modelled as a list of exactly n
records, each carrying its own copy of the address bytes that were on the
wire; when n = 0 the list is empty (the returned pointer is NULL) while
the tag is still returned. -/
theorem c10_record_list (t : Nat) (rs : List addrinfo) (rest : List Nat)
    (ht : t < 256 ^ wordSize) (hn : rs.length < 256 ^ wordSize)
    (hr : ∀ r ∈ rs, WFrecord r) :
    readResponse (encodeResponse t rs ++ rest) =
        some (t, rs.map recvRecord, rest)
    ∧ (rs.map recvRecord).length = rs.length
    ∧ (∀ r ∈ rs, (recvRecord r).addr = r.addr)
    ∧ (rs = [] → readResponse (encodeResponse t rs ++ rest) =
        some (t, ([] : List addrinfo), rest)) := by
  refine ⟨readResponse_encode t rs rest ht hn hr, by simp, ?_, ?_⟩
  · intro r hmem
    obtain ⟨h1, h2⟩ := hr r hmem
    show r.addr.take (r.ai_addrlen % 256 ^ 4) = r.addr
    rw [Nat.mod_eq_of_lt h1, ← h2, List.take_length]
  · intro hnil
    subst hnil
    simpa using readResponse_encode t [] rest ht hn hr

/-- Witness for C10 at a one-record frame. -/
theorem c10_record_list_witness :
    readResponse (encodeResponse 4 [recW] ++ []) =
        some (4, [recW].map recvRecord, [])
    ∧ ([recW].map recvRecord).length = ([recW] : List addrinfo).length
    ∧ (∀ r ∈ ([recW] : List addrinfo), (recvRecord r).addr = r.addr)
    ∧ (([recW] : List addrinfo) = [] →
        readResponse (encodeResponse 4 [recW] ++ []) =
          some (4, ([] : List addrinfo), [])) :=
  c10_record_list 4 [recW] [] (by decide) (by decide) (by decide)

end Resolver
